import Mathlib

/-!
Verification of the blog application's data-access layer, slug generator,
session gate and request handlers, shallowly embedded from the TypeScript
source (`src/models/postModel.ts`, the author model quoted in `CHANGES.md`,
`src/controllers/adminController.ts`, `src/controllers/authController.ts`,
`src/controllers/postController.ts`, `src/middleware/auth.ts`,
`src/config/database.ts`).

Conventions of the embedding:
* strings are Lean `String`s; character-level work is done on `String.data`;
* SQL `TEXT` timestamps (produced by `datetime('now')`) are modelled as `Nat`
  ticks, which preserves their ordering;
* a possible store-level error while executing a prepared statement is
  modelled by one `Bool` fault argument per statement: repository functions
  whose source wraps the statement(s) in `try/catch` absorb the fault and
  return `null`/`false` (modelled as `none`/`false`) — the create/update
  functions execute two statements (write, then read-back) under one catch
  and therefore take `faultWrite` and `faultRead` flags, a read-back fault
  being caught only after the write committed — while repository functions
  with no `try/catch` let the error escape, which is modelled by an
  `Except` return type;
* the external `sanitize-html` library function is an abstract parameter
  `san : String → SanitizeOptions → String`; the configuration object
  `sanitizeOptions` is embedded literally.
-/

/-! ## Slug generator (`createSlug`, src/models/postModel.ts lines 232-239) -/

/-- JavaScript's `\w` character class: ASCII letters, digits and underscore. -/
def isWordChar (c : Char) : Bool :=
  c.isAlpha || c.isDigit || c == '_'

/-- JavaScript's `\s` character class (the WhiteSpace and LineTerminator
productions): space, tab, LF, VT, FF, CR, NBSP, BOM, line/paragraph
separators and the Unicode space separators. -/
def isJsSpace (c : Char) : Bool :=
  c == ' ' || c == '\t' || c == '\n' || c == '\u000B' || c == '\u000C' ||
  c == '\r' || c == '\u00A0' || c == '\u1680' ||
  ('\u2000' ≤ c && c ≤ '\u200A') ||
  c == '\u2028' || c == '\u2029' || c == '\u202F' || c == '\u205F' ||
  c == '\u3000' || c == '\uFEFF'

/-- `String.prototype.toLowerCase`, restricted to the ASCII range (the
titles this application manipulates): `A`-`Z` map to `a`-`z`. -/
def jsToLower (c : Char) : Char :=
  if 'A' ≤ c && c ≤ 'Z' then Char.ofNat (c.toNat + 32) else c

/-- `String.prototype.trim()`: drop JS whitespace from both ends. -/
def jsTrim (s : List Char) : List Char :=
  ((s.dropWhile isJsSpace).reverse.dropWhile isJsSpace).reverse

/-- `.replace(/[^\w\s-]/g, "")`: delete every character that is not a word
character, whitespace or a hyphen. -/
def removeSpecials (s : List Char) : List Char :=
  s.filter (fun c => isWordChar c || isJsSpace c || c == '-')

/-- `.replace(/p+/g, r)` for a character class `p`: every maximal run of
characters satisfying `p` becomes the single character `r`.  Implemented by
keeping only the last character of each run (replaced by `r`), which is
structurally recursive. -/
def squashRuns (p : Char → Bool) (r : Char) : List Char → List Char
  | [] => []
  | [c] => if p c then [r] else [c]
  | c :: c' :: cs =>
    if p c && p c' then squashRuns p r (c' :: cs)
    else (if p c then r else c) :: squashRuns p r (c' :: cs)

/-- `createSlug` (src/models/postModel.ts lines 232-239): lowercase, trim,
remove special characters, replace whitespace runs with `-`, collapse `-`
runs. -/
def createSlug (title : String) : String :=
  ⟨squashRuns (fun c => c == '-') '-'
    (squashRuns isJsSpace '-'
      (removeSpecials
        (jsTrim
          (title.data.map jsToLower))))⟩

/-! ### The slug algorithm as the specification words it (claim C1) -/

/-- Spec wording: a character that is "a letter, digit, underscore, hyphen,
or whitespace" is kept by the removal step. -/
def specKeepChar (c : Char) : Bool :=
  c.isAlpha || c.isDigit || c == '_' || c == '-' || isJsSpace c

/-- Spec wording: "replacing each run of `p`-characters with the single
character `r`", written by emitting `r` at the head of each run and skipping
the rest of the run. -/
def specReplaceRuns (p : Char → Bool) (r : Char) : List Char → List Char
  | [] => []
  | c :: cs =>
    if p c then r :: specReplaceRuns p r (cs.dropWhile p)
    else c :: specReplaceRuns p r cs
termination_by l => l.length
decreasing_by
  · simpa using Nat.lt_succ_of_le (List.Sublist.length_le (List.dropWhile_sublist p))
  · simp

/-- The slug generator as the specification describes it: lowercase the
title, trim leading/trailing whitespace, remove every character that is not
a letter/digit/underscore/hyphen/whitespace, replace each run of whitespace
with a single hyphen, collapse each run of hyphens into a single hyphen. -/
def specCreateSlug (title : String) : String :=
  ⟨specReplaceRuns (fun c => c == '-') '-'
    (specReplaceRuns isJsSpace '-'
      ((jsTrim (title.data.map jsToLower)).filter specKeepChar))⟩

/-! ## Sanitizer configuration (src/models/postModel.ts lines 14-23) -/

/-- The option object shape accepted by the external `sanitize-html`
library: an allow-list of tags and a per-tag allow-list of attributes. -/
structure SanitizeOptions where
  allowedTags : List String
  allowedAttributes : List (String × List String)
deriving DecidableEq

/-- `sanitizeHtml.defaults.allowedTags` of the `sanitize-html` library. -/
def defaultsAllowedTags : List String :=
  ["address", "article", "aside", "footer", "header", "h3", "h4", "h5", "h6",
   "hgroup", "main", "nav", "section", "blockquote", "dd", "div", "dl", "dt",
   "figcaption", "figure", "hr", "li", "ol", "p", "pre", "ul", "a", "abbr",
   "b", "bdi", "bdo", "br", "cite", "code", "data", "dfn", "em", "i", "kbd",
   "mark", "q", "rb", "rp", "rt", "rtc", "ruby", "s", "samp", "small", "span",
   "strong", "sub", "sup", "time", "u", "var", "wbr", "caption", "col",
   "colgroup", "table", "tbody", "td", "tfoot", "th", "thead", "tr"]

/-- `sanitizeOptions` (src/models/postModel.ts lines 14-23): the default tag
allow-list extended with `h1`, `h2`, `img`; the default attribute map spread
and then overridden so that `img` allows `src`/`alt`/`title` and `a` allows
`href`/`target`/`rel` (the spread default for `a` is replaced by the later
key). -/
def sanitizeOptions : SanitizeOptions :=
  { allowedTags := defaultsAllowedTags ++ ["h1", "h2", "img"],
    allowedAttributes :=
      [("img", ["src", "alt", "title"]), ("a", ["href", "target", "rel"])] }

/-! ## Content store (src/config/database.ts): rows and database state -/

/-- A row of the `authors` table.  `email`/`bio` are nullable. -/
structure AuthorRow where
  id : Nat
  name : String
  email : Option String
  bio : Option String
  created_at : Nat
  updated_at : Nat
deriving DecidableEq

/-- A row of the `posts` table.  `author_id` is a nullable foreign key with
`ON DELETE SET NULL`. -/
structure PostRow where
  id : Nat
  title : String
  slug : String
  excerpt : String
  content : String
  author_id : Option Nat
  created_at : Nat
  updated_at : Nat
deriving DecidableEq

/-- The SQLite database state: both tables plus the AUTOINCREMENT
counters. -/
structure DB where
  authors : List AuthorRow
  posts : List PostRow
  nextAuthorId : Nat
  nextPostId : Nat
deriving DecidableEq

/-- The INTEGER PRIMARY KEY AUTOINCREMENT invariant: every stored id is
below its table's next counter and ids are pairwise distinct (true of every
database produced by the schema). -/
def DB.wf (db : DB) : Bool :=
  db.posts.all (fun p => decide (p.id < db.nextPostId)) &&
  db.authors.all (fun a => decide (a.id < db.nextAuthorId)) &&
  decide (db.posts.map PostRow.id).Nodup &&
  decide (db.authors.map AuthorRow.id).Nodup

/-- JavaScript `x || null` on an optional numeric field: `undefined`, `null`
and the falsy number `0` all become `null`. -/
def jsOrNullNat : Option Nat → Option Nat
  | some 0 => none
  | none => none
  | some n => some n

/-- JavaScript `x || null` on an optional string field: `undefined`, `null`
and the falsy empty string all become `null`. -/
def jsOrNullStr : Option String → Option String
  | some "" => none
  | none => none
  | some s => some s

/-- Does binding `author_id` violate the foreign key against `authors`
(`db.pragma("foreign_keys = ON")`)?  `NULL` is always allowed. -/
def fkViolation (db : DB) : Option Nat → Bool
  | none => false
  | some aid => !db.authors.any (fun a => a.id == aid)

/-! ## Row-to-object mapping (`mapRowToPost`, src/models/postModel.ts 26-48) -/

/-- The mapped `Post` object returned by the post repository: the row's
columns under their JS names plus the author object when the LEFT JOIN
found one. -/
structure Post where
  id : Nat
  title : String
  slug : String
  excerpt : String
  content : String
  author_id : Option Nat
  createdAt : Nat
  updatedAt : Nat
  author : Option AuthorRow
deriving DecidableEq

/-- The `LEFT JOIN authors a ON p.author_id = a.id` of every read query. -/
def joinedAuthor (db : DB) (row : PostRow) : Option AuthorRow :=
  match row.author_id with
  | none => none
  | some aid => db.authors.find? (fun a => a.id == aid)

/-- `mapRowToPost`: copy the columns; attach the author object only when the
joined `author_name` is truthy (a join miss gives `NULL`, and an empty name
is also falsy in `row.author_name && {...}`). -/
def mapRowToPost (db : DB) (row : PostRow) : Post :=
  { id := row.id, title := row.title, slug := row.slug,
    excerpt := row.excerpt, content := row.content,
    author_id := row.author_id,
    createdAt := row.created_at, updatedAt := row.updated_at,
    author :=
      match joinedAuthor db row with
      | some a => if a.name == "" then none else some a
      | none => none }

/-! ## Orderings (`ORDER BY p.created_at DESC`, `ORDER BY name ASC`) -/

/-- Insert a post row into a list sorted by `created_at` descending,
after any row with a greater-or-equal key (stable). -/
def insertByCreatedDesc (x : PostRow) : List PostRow → List PostRow
  | [] => [x]
  | y :: ys =>
    if y.created_at ≥ x.created_at then y :: insertByCreatedDesc x ys
    else x :: y :: ys

/-- `ORDER BY p.created_at DESC` as an insertion sort. -/
def sortByCreatedDesc : List PostRow → List PostRow
  | [] => []
  | x :: xs => insertByCreatedDesc x (sortByCreatedDesc xs)

/-- Insert an author row into a list sorted by `name` ascending (stable). -/
def insertByNameAsc (x : AuthorRow) : List AuthorRow → List AuthorRow
  | [] => [x]
  | y :: ys =>
    if y.name ≤ x.name then y :: insertByNameAsc x ys
    else x :: y :: ys

/-- `ORDER BY name ASC` as an insertion sort. -/
def sortByNameAsc : List AuthorRow → List AuthorRow
  | [] => []
  | x :: xs => insertByNameAsc x (sortByNameAsc xs)

/-! ## SQLite `LIKE` -/

/-- SQLite `LIKE` matching: `%` matches any character sequence, `_` matches
exactly one character, any other pattern character matches
ASCII-case-insensitively.  Recursion is structural on the pattern; `%`
tries every suffix of the subject. -/
def likeMatch : List Char → List Char → Bool
  | [] => fun s => s.isEmpty
  | '%' :: ps => fun s => s.tails.any (fun t => likeMatch ps t)
  | c :: ps => fun s =>
    match s with
    | [] => false
    | x :: s' => (c == '_' || jsToLower c == jsToLower x) && likeMatch ps s'

/-- The search pattern built by both search functions:
`` `%${query}%` ``. -/
def likePattern (q : String) : String := "%" ++ q ++ "%"

/-- `column LIKE pattern` on strings. -/
def sqlLike (pat s : String) : Bool := likeMatch pat.data s.data

/-! ## Post repository (src/models/postModel.ts)

Reads have no `try/catch` in the source, so a store fault escapes to the
caller: they return `Except`.  Mutations wrap everything in `try/catch` and
convert any store error to `null`/`false`: they are total. -/

/-- The result rows of `getAllPosts`'s query. -/
def queryAllPosts (db : DB) : List Post :=
  (sortByCreatedDesc db.posts).map (mapRowToPost db)

/-- `getAllPosts` (lines 53-68): all posts with joined author, newest
first.  No `try/catch`: a store fault escapes. -/
def getAllPosts (db : DB) (fault : Bool) : Except String (List Post) :=
  if fault then .error "SqliteError" else .ok (queryAllPosts db)

/-- The single-row lookup behind `getPostById`. -/
def getPostByIdQuery (db : DB) (id : Nat) : Option Post :=
  (db.posts.find? (fun p => p.id == id)).map (mapRowToPost db)

/-- `getPostById` (lines 73-88).  No `try/catch`: a store fault escapes. -/
def getPostById (db : DB) (id : Nat) (fault : Bool) :
    Except String (Option Post) :=
  if fault then .error "SqliteError" else .ok (getPostByIdQuery db id)

/-- `getPostBySlug` (lines 94-109).  No `try/catch`: a store fault
escapes. -/
def getPostBySlug (db : DB) (slug : String) (fault : Bool) :
    Except String (Option Post) :=
  if fault then .error "SqliteError"
  else .ok ((db.posts.find? (fun p => p.slug == slug)).map (mapRowToPost db))

/-- The result rows of `searchPosts`'s query: rows whose title, excerpt or
content `LIKE '%query%'`, newest first. -/
def querySearchPosts (db : DB) (q : String) : List Post :=
  let pat := likePattern q
  (sortByCreatedDesc (db.posts.filter (fun p =>
      sqlLike pat p.title || sqlLike pat p.excerpt || sqlLike pat p.content))).map
    (mapRowToPost db)

/-- `searchPosts` (lines 204-221).  No `try/catch`: a store fault
escapes. -/
def searchPosts (db : DB) (q : String) (fault : Bool) :
    Except String (List Post) :=
  if fault then .error "SqliteError" else .ok (querySearchPosts db q)

/-- `CreatePostInput` (src/types/Post.ts): title, excerpt, content and an
optional author reference. -/
structure CreatePostInput where
  title : String
  excerpt : String
  content : String
  author_id : Option Nat
deriving DecidableEq

/-- `UpdatePostInput` has the same fields. -/
abbrev UpdatePostInput := CreatePostInput

/-- `createPost` (lines 113-137): derive the slug, sanitize the content,
INSERT, read the new row back.  The whole body — two statements — is inside
one `try/catch`: a store fault at the INSERT (`faultWrite`) or a constraint
violation (duplicate slug UNIQUE, foreign key) is caught before anything is
written and yields `null` with the store unchanged; a store fault at the
read-back SELECT (`faultRead`) is caught *after* the INSERT committed and
yields `null` although the store has changed. -/
def createPost (san : String → SanitizeOptions → String) (db : DB) (now : Nat)
    (postData : CreatePostInput) (faultWrite faultRead : Bool) :
    DB × Option Post :=
  if faultWrite then (db, none) else
  let slug := createSlug postData.title
  let sanitizedContent := san postData.content sanitizeOptions
  let authorId := jsOrNullNat postData.author_id
  if db.posts.any (fun p => p.slug == slug) then (db, none)
  else if fkViolation db authorId then (db, none)
  else
    let row : PostRow :=
      { id := db.nextPostId, title := postData.title, slug := slug,
        excerpt := postData.excerpt, content := sanitizedContent,
        author_id := authorId, created_at := now, updated_at := now }
    let db' : DB :=
      { db with posts := db.posts ++ [row], nextPostId := db.nextPostId + 1 }
    (db', if faultRead then none else getPostByIdQuery db' row.id)

/-- `updatePost` (lines 141-180): regenerate the slug from the submitted
title, sanitize the content, UPDATE every column plus `updated_at` (and not
`created_at`), return `null` when no row matched.  The UPDATE and the
read-back SELECT sit in one `try/catch`: a fault at the UPDATE
(`faultWrite`) is caught with the store unchanged, a fault at the read-back
(`faultRead`) is caught after the committed UPDATE and returns `null` with
the store changed. -/
def updatePost (san : String → SanitizeOptions → String) (db : DB) (now : Nat)
    (id : Nat) (postData : UpdatePostInput) (faultWrite faultRead : Bool) :
    DB × Option Post :=
  if faultWrite then (db, none) else
  let slug := createSlug postData.title
  let sanitizedContent := san postData.content sanitizeOptions
  let authorId := jsOrNullNat postData.author_id
  if db.posts.any (fun p => p.id != id && p.slug == slug) then (db, none)
  else if fkViolation db authorId then (db, none)
  else if !db.posts.any (fun p => p.id == id) then (db, none)
  else
    let db' : DB :=
      { db with posts := db.posts.map (fun p =>
          if p.id == id then
            { p with
              title := postData.title, slug := slug,
              excerpt := postData.excerpt, content := sanitizedContent,
              author_id := authorId, updated_at := now }
          else p) }
    (db', if faultRead then none else getPostByIdQuery db' id)

/-- `deletePost` (lines 184-198): DELETE by id, report whether a row was
removed.  A single statement fully inside `try/catch`. -/
def deletePost (db : DB) (id : Nat) (fault : Bool) : DB × Bool :=
  if fault then (db, false)
  else ({ db with posts := db.posts.filter (fun p => p.id != id) },
        db.posts.any (fun p => p.id == id))

/-! ## Author repository (`authorModel.ts`, quoted in CHANGES.md) -/

/-- `CreateAuthorInput` (src/types/Author.ts): name plus optional email and
bio. -/
structure CreateAuthorInput where
  name : String
  email : Option String
  bio : Option String
deriving DecidableEq

/-- `UpdateAuthorInput` has the same fields. -/
abbrev UpdateAuthorInput := CreateAuthorInput

/-- `getAllAuthors`: all authors ordered by name.  No `try/catch`: a store
fault escapes. -/
def getAllAuthors (db : DB) (fault : Bool) : Except String (List AuthorRow) :=
  if fault then .error "SqliteError" else .ok (sortByNameAsc db.authors)

/-- The single-row lookup behind `getAuthorById`. -/
def getAuthorByIdQuery (db : DB) (id : Nat) : Option AuthorRow :=
  db.authors.find? (fun a => a.id == id)

/-- `getAuthorById`.  No `try/catch`: a store fault escapes. -/
def getAuthorById (db : DB) (id : Nat) (fault : Bool) :
    Except String (Option AuthorRow) :=
  if fault then .error "SqliteError" else .ok (getAuthorByIdQuery db id)

/-- `createAuthor` (CHANGES.md lines 461-480): INSERT name, `email || null`,
`bio || null`, read the row back.  INSERT and read-back share one
`try/catch`: a fault at the INSERT (`faultWrite`) or a UNIQUE(email)
violation (only possible against a non-NULL email) yields `null` with the
store unchanged; a fault at the read-back (`faultRead`) yields `null` after
the committed INSERT. -/
def createAuthor (db : DB) (now : Nat) (authorData : CreateAuthorInput)
    (faultWrite faultRead : Bool) : DB × Option AuthorRow :=
  if faultWrite then (db, none) else
  let email := jsOrNullStr authorData.email
  let bio := jsOrNullStr authorData.bio
  if (match email with
      | some e => db.authors.any (fun a => a.email == some e)
      | none => false) then (db, none)
  else
    let row : AuthorRow :=
      { id := db.nextAuthorId, name := authorData.name, email := email,
        bio := bio, created_at := now, updated_at := now }
    let db' : DB :=
      { db with
        authors := db.authors ++ [row],
        nextAuthorId := db.nextAuthorId + 1 }
    (db', if faultRead then none else getAuthorByIdQuery db' row.id)

/-- `updateAuthor` (CHANGES.md lines 484-516): UPDATE name, `email || null`,
`bio || null`, refresh `updated_at`; `null` when no row matched.  UPDATE
and read-back share one `try/catch`: a fault at the UPDATE (`faultWrite`)
is caught with the store unchanged, a fault at the read-back (`faultRead`)
is caught after the committed UPDATE. -/
def updateAuthor (db : DB) (now : Nat) (id : Nat)
    (authorData : UpdateAuthorInput) (faultWrite faultRead : Bool) :
    DB × Option AuthorRow :=
  if faultWrite then (db, none) else
  let email := jsOrNullStr authorData.email
  let bio := jsOrNullStr authorData.bio
  if (match email with
      | some e => db.authors.any (fun a => a.id != id && a.email == some e)
      | none => false) then (db, none)
  else if !db.authors.any (fun a => a.id == id) then (db, none)
  else
    let db' : DB :=
      { db with authors := db.authors.map (fun a =>
          if a.id == id then
            { a with
              name := authorData.name, email := email, bio := bio,
              updated_at := now }
          else a) }
    (db', if faultRead then none else getAuthorByIdQuery db' id)

/-- `deleteAuthor` (CHANGES.md lines 522-536): DELETE by id; the store's
`ON DELETE SET NULL` referential action clears `author_id` on every post
that referenced the author.  A single statement fully inside
`try/catch`. -/
def deleteAuthor (db : DB) (id : Nat) (fault : Bool) : DB × Bool :=
  if fault then (db, false)
  else
    ({ db with
        authors := db.authors.filter (fun a => a.id != id),
        posts := db.posts.map (fun p =>
          if p.author_id == some id then { p with author_id := none } else p) },
      db.authors.any (fun a => a.id == id))

/-- The result rows of `searchAuthors`'s query: rows whose name or email
`LIKE '%query%'` (a NULL email never matches), ordered by name. -/
def querySearchAuthors (db : DB) (q : String) : List AuthorRow :=
  let pat := likePattern q
  sortByNameAsc (db.authors.filter (fun a =>
    sqlLike pat a.name ||
      (match a.email with | some e => sqlLike pat e | none => false)))

/-- `searchAuthors` (CHANGES.md lines 541-551).  No `try/catch`: a store
fault escapes. -/
def searchAuthors (db : DB) (q : String) (fault : Bool) :
    Except String (List AuthorRow) :=
  if fault then .error "SqliteError" else .ok (querySearchAuthors db q)

/-- `getAuthorsWithPostCount`: every author with the count of posts that
reference it (0 when none), ordered by name.  No `try/catch`: a store fault
escapes. -/
def getAuthorsWithPostCount (db : DB) (fault : Bool) :
    Except String (List (AuthorRow × Nat)) :=
  if fault then .error "SqliteError"
  else .ok ((sortByNameAsc db.authors).map (fun a =>
    (a, (db.posts.filter (fun p => p.author_id == some a.id)).length)))

/-! ## Session gate (src/middleware/auth.ts, src/controllers/authController.ts) -/

/-- The session fields the gate uses (src/types/Session.ts). -/
structure Session where
  isAuthenticated : Bool
  returnTo : Option String
deriving DecidableEq

/-- What `requireAuth` does with the request: pass it on or redirect. -/
inductive GateResult
  | next
  | redirect (url : String)
deriving DecidableEq

/-- `requireAuth` (src/middleware/auth.ts lines 213-235): an authenticated
session passes through unchanged; otherwise the requested URL is recorded
on the session and the client is redirected to `/login`. -/
def requireAuth (s : Session) (originalUrl : String) : Session × GateResult :=
  if s.isAuthenticated then (s, .next)
  else ({ s with returnTo := some originalUrl }, .redirect "/login")

/-- What `handleLogin` responds with. -/
inductive LoginResult
  | redirect (url : String)
  | renderLoginError (msg : String)
deriving DecidableEq

/-- `handleLogin` (src/controllers/authController.ts lines 251-279): on an
exact credential match, set the authenticated flag, redirect to the
recorded `returnTo` (default `/admin/posts`) and delete `returnTo`;
otherwise re-render the login form with a generic error. -/
def handleLogin (s : Session) (password adminPassword : String) :
    Session × LoginResult :=
  if password == adminPassword then
    let s1 : Session := { s with isAuthenticated := true }
    let dest := s1.returnTo.getD "/admin/posts"
    ({ s1 with returnTo := none }, .redirect dest)
  else
    (s, .renderLoginError "Invalid password. Please try again.")

/-! ## Listing handlers (src/controllers/adminController.ts `index`,
src/controllers/postController.ts `index`) -/

/-- The view model both `index` handlers render. -/
structure PageView (α : Type) where
  posts : List α
  currentPage : Int
  totalPages : Nat
  hasPrevious : Bool
  hasNext : Bool
deriving DecidableEq

/-- A listing handler's response: the rendered list page, or the error page
rendered by the `catch` block. -/
inductive IndexResponse (α : Type)
  | page (v : PageView α)
  | errorPage (status : Nat)
deriving DecidableEq

/-- `Array.prototype.slice(start, end)`: negative indices count from the
end, indices are clamped to `[0, length]`, and the elements with indices in
`[start, end)` are returned. -/
def jsSlice {α : Type} (l : List α) (start stop : Int) : List α :=
  let len : Int := l.length
  let s := if start < 0 then max (len + start) 0 else min start len
  let e := if stop < 0 then max (len + stop) 0 else min stop len
  (l.take e.toNat).drop s.toNat

/-- The admin post list handler `index` (adminController.ts lines 15-58):
search or list all, then paginate in the handler with `limit = 10`:
`totalPages = Math.ceil(totalPosts / limit)` (exact on these integers,
embedded as Nat ceiling division), `offset = (page - 1) * limit`,
`posts = allPosts.slice(offset, offset + limit)`.  A repository exception
is caught and turned into the 500 error page. -/
def adminPostsIndex (db : DB) (searchQuery : String) (page : Int)
    (fault : Bool) : IndexResponse Post :=
  match (if searchQuery != "" then searchPosts db searchQuery fault
         else getAllPosts db fault) with
  | .error _ => .errorPage 500
  | .ok allPosts =>
    let limit : Nat := 10
    let totalPosts := allPosts.length
    let totalPages := (totalPosts + limit - 1) / limit
    let offset : Int := (page - 1) * limit
    .page
      { posts := jsSlice allPosts offset (offset + limit),
        currentPage := page, totalPages := totalPages,
        hasPrevious := decide (page > 1),
        hasNext := decide (page < (totalPages : Int)) }

/-- The public post list handler `index` (postController.ts lines 310-342):
same pagination with `limit = 6` and no search. -/
def publicPostsIndex (db : DB) (page : Int) (fault : Bool) :
    IndexResponse Post :=
  match getAllPosts db fault with
  | .error _ => .errorPage 500
  | .ok allPosts =>
    let limit : Nat := 6
    let totalPosts := allPosts.length
    let totalPages := (totalPosts + limit - 1) / limit
    let offset : Int := (page - 1) * limit
    .page
      { posts := jsSlice allPosts offset (offset + limit),
        currentPage := page, totalPages := totalPages,
        hasPrevious := decide (page > 1),
        hasNext := decide (page < (totalPages : Int)) }

/-- Does `needle` occur in `hay` as a literal substring? -/
def containsSubstrChars (needle : List Char) : List Char → Bool
  | [] => needle.isEmpty
  | c :: t => needle.isPrefixOf (c :: t) || containsSubstrChars needle t

/-- Literal (non-wildcard) substring containment on strings. -/
def containsSubstr (needle hay : String) : Bool :=
  containsSubstrChars needle.data hay.data

theorem squashRuns_eq_specReplaceRuns (p : Char → Bool) (r : Char)
    (l : List Char) : squashRuns p r l = specReplaceRuns p r l := by
  induction l with
  | nil => simp [squashRuns, specReplaceRuns]
  | cons c cs ih =>
    cases cs with
    | nil =>
      rw [specReplaceRuns]
      by_cases hc : p c <;> simp [squashRuns, hc, specReplaceRuns]
    | cons c' cs' =>
      rw [specReplaceRuns]
      by_cases hc : p c <;> by_cases hc' : p c'
      · rw [if_pos hc]
        have : squashRuns p r (c :: c' :: cs') = squashRuns p r (c' :: cs') := by
          simp [squashRuns, hc, hc']
        rw [this, ih, specReplaceRuns, if_pos hc', List.dropWhile_cons_of_pos hc']
      · rw [if_pos hc]
        have : squashRuns p r (c :: c' :: cs') = r :: squashRuns p r (c' :: cs') := by
          simp [squashRuns, hc, hc']
        rw [this, ih, List.dropWhile_cons_of_neg hc']
      · rw [if_neg hc]
        have : squashRuns p r (c :: c' :: cs') = c :: squashRuns p r (c' :: cs') := by
          simp [squashRuns, hc]
        rw [this, ih]
      · rw [if_neg hc]
        have : squashRuns p r (c :: c' :: cs') = c :: squashRuns p r (c' :: cs') := by
          simp [squashRuns, hc]
        rw [this, ih]

theorem removeSpecials_eq_spec_filter (l : List Char) :
    removeSpecials l = l.filter specKeepChar := by
  unfold removeSpecials
  apply List.filter_congr
  intro c _
  simp only [isWordChar, specKeepChar]
  cases c.isAlpha <;> cases c.isDigit <;> cases c == '_' <;> cases isJsSpace c <;>
    cases c == '-' <;> rfl

/-- C1: for every title, `createSlug` computes exactly the pipeline the
specification describes (lowercase, trim, remove characters outside
letter/digit/underscore/hyphen/whitespace, collapse whitespace runs into one
hyphen, collapse hyphen runs into one hyphen), and it is deterministic:
equal titles yield equal slugs. -/
theorem createSlug_matches_spec (t : String) :
    createSlug t = specCreateSlug t ∧
    ∀ t' : String, t = t' → createSlug t = createSlug t' := by
  constructor
  · unfold createSlug specCreateSlug
    rw [squashRuns_eq_specReplaceRuns, squashRuns_eq_specReplaceRuns,
      removeSpecials_eq_spec_filter]
  · intro t' h
    rw [h]

/-- Witness for C1 at the concrete title "My First Post!". -/
theorem createSlug_matches_spec_witness :
    createSlug "My First Post!" = specCreateSlug "My First Post!" ∧
    createSlug "My First Post!" = createSlug "My First Post!" :=
  ⟨(createSlug_matches_spec "My First Post!").1,
   (createSlug_matches_spec "My First Post!").2 "My First Post!" rfl⟩

/-! ## Supporting lemmas -/

theorem jsSlice_nat {α : Type} (l : List α) (s L : Nat) :
    jsSlice l (s : Int) ((s : Int) + (L : Int)) = (l.drop s).take L := by
  unfold jsSlice
  have hs : ¬ ((s : Int) < 0) := by omega
  have he : ¬ ((s : Int) + (L : Int) < 0) := by omega
  simp only [if_neg hs, if_neg he]
  have h1 : (min (s : Int) (l.length : Int)).toNat = min s l.length := by omega
  have h2 : (min ((s : Int) + (L : Int)) (l.length : Int)).toNat =
      min (s + L) l.length := by omega
  rw [h1, h2]
  rcases Nat.le_total s l.length with hle | hle
  · rw [Nat.min_eq_left hle, List.drop_take]
    rcases Nat.le_total (s + L) l.length with h3 | h3
    · rw [Nat.min_eq_left h3]
      congr 1
      omega
    · rw [Nat.min_eq_right h3]
      have hdl : (l.drop s).length ≤ L := by rw [List.length_drop]; omega
      have hdl2 : (l.drop s).length ≤ l.length - s := by rw [List.length_drop]
      rw [List.take_of_length_le hdl, List.take_of_length_le hdl2]
  · rw [Nat.min_eq_right hle, Nat.min_eq_right (by omega), List.take_length,
      List.drop_eq_nil_of_le hle, List.drop_eq_nil_of_le (by simp),
      List.take_nil]

theorem ceilDivTen (P : Nat) : (P + 10 - 1) / 10 = P ⌈/⌉ 10 := by
  have h1 : P ≤ 10 • (P ⌈/⌉ 10) := (gc_smul_ceilDiv (by norm_num)).le_u_l P
  simp only [smul_eq_mul] at h1
  apply le_antisymm
  · omega
  · rw [ceilDiv_le_iff_le_smul (by norm_num), smul_eq_mul]; omega

theorem ceilDivSix (P : Nat) : (P + 6 - 1) / 6 = P ⌈/⌉ 6 := by
  have h1 : P ≤ 6 • (P ⌈/⌉ 6) := (gc_smul_ceilDiv (by norm_num)).le_u_l P
  simp only [smul_eq_mul] at h1
  apply le_antisymm
  · omega
  · rw [ceilDiv_le_iff_le_smul (by norm_num), smul_eq_mul]; omega

theorem tails_any_isEmpty (s : List Char) :
    s.tails.any (fun t => t.isEmpty) = true := by
  induction s <;> simp_all [List.tails_cons]

theorem likeMatch_pp (s : List Char) : likeMatch ['%', '%'] s = true := by
  simp only [likeMatch]
  refine List.any_eq_true.mpr ⟨s, ?_, ?_⟩
  · exact (List.mem_tails s s).mpr (List.suffix_refl s)
  · exact tails_any_isEmpty s

theorem sqlLike_empty_query (s : String) : sqlLike (likePattern "") s = true := by
  have h : (likePattern "").data = ['%', '%'] := rfl
  unfold sqlLike
  rw [h]
  exact likeMatch_pp s.data

/-! ## Claim theorems -/

/-- C8: searching with the empty query is the corresponding list-all
operation, order included: `searchPosts("")` equals `getAllPosts()` (newest
first) and `searchAuthors("")` equals `getAllAuthors()` (by name), because
`LIKE '%%'` matches every non-NULL column and both sides sort
identically. -/
theorem empty_search_is_list_all (db : DB) (fault : Bool) :
    searchPosts db "" fault = getAllPosts db fault ∧
    searchAuthors db "" fault = getAllAuthors db fault := by
  constructor
  · unfold searchPosts getAllPosts
    cases fault
    · simp only [if_neg (by simp : ¬ (false = true))]
      congr 1
      simp only [querySearchPosts, queryAllPosts]
      have hf : db.posts.filter (fun p =>
          sqlLike (likePattern "") p.title || sqlLike (likePattern "") p.excerpt ||
            sqlLike (likePattern "") p.content) = db.posts := by
        refine List.filter_eq_self.mpr ?_
        intro p _
        simp [sqlLike_empty_query]
      rw [hf]
    · rfl
  · unfold searchAuthors getAllAuthors
    cases fault
    · simp only [if_neg (by simp : ¬ (false = true))]
      congr 1
      simp only [querySearchAuthors]
      have hf : db.authors.filter (fun a =>
          sqlLike (likePattern "") a.name ||
            (match a.email with
             | some e => sqlLike (likePattern "") e
             | none => false)) = db.authors := by
        refine List.filter_eq_self.mpr ?_
        intro a _
        simp [sqlLike_empty_query]
      rw [hf]
    · rfl

/-- C3: an unauthenticated request to an admin path is redirected to
`/login` with the requested path recorded; a following correct-credential
login redirects to that recorded path and clears it; a second
correct-credential login therefore redirects to the default
`/admin/posts`. -/
theorem session_gate_replays_path_once (s : Session) (path pw : String)
    (h : s.isAuthenticated = false) :
    (requireAuth s path).2 = GateResult.redirect "/login" ∧
    ((requireAuth s path).1).returnTo = some path ∧
    ((requireAuth s path).1).isAuthenticated = false ∧
    (handleLogin (requireAuth s path).1 pw pw).2 = LoginResult.redirect path ∧
    ((handleLogin (requireAuth s path).1 pw pw).1).returnTo = none ∧
    ((handleLogin (requireAuth s path).1 pw pw).1).isAuthenticated = true ∧
    (handleLogin (handleLogin (requireAuth s path).1 pw pw).1 pw pw).2 =
      LoginResult.redirect "/admin/posts" := by
  simp [requireAuth, handleLogin, h]

/-- Witness for C3 at a concrete session, path and credential. -/
theorem session_gate_replays_path_once_witness :
    (requireAuth ⟨false, none⟩ "/admin/authors").2 = GateResult.redirect "/login" ∧
    ((requireAuth ⟨false, none⟩ "/admin/authors").1).returnTo = some "/admin/authors" ∧
    ((requireAuth ⟨false, none⟩ "/admin/authors").1).isAuthenticated = false ∧
    (handleLogin (requireAuth ⟨false, none⟩ "/admin/authors").1 "pw" "pw").2 =
      LoginResult.redirect "/admin/authors" ∧
    ((handleLogin (requireAuth ⟨false, none⟩ "/admin/authors").1 "pw" "pw").1).returnTo = none ∧
    ((handleLogin (requireAuth ⟨false, none⟩ "/admin/authors").1 "pw" "pw").1).isAuthenticated = true ∧
    (handleLogin (handleLogin (requireAuth ⟨false, none⟩ "/admin/authors").1 "pw" "pw").1 "pw" "pw").2 =
      LoginResult.redirect "/admin/posts" :=
  session_gate_replays_path_once ⟨false, none⟩ "/admin/authors" "pw" rfl

/-- C5: a listing request over the fully loaded ordered result sequence
with page size 10 (admin) and 6 (public) and requested page `k ≥ 1` renders
exactly the records with indices `[(k-1)*L, k*L)`, computes `totalPages` as
the ceiling of `P / L`, and sets `hasPrevious` iff `k > 1` and `hasNext`
iff `k < ceil(P / L)`; the slice is taken in the handler from the full
repository result. -/
theorem listing_handlers_paginate (db : DB) (q : String) (k : Int)
    (fullA fullP : List Post)
    (hk : 1 ≤ k)
    (hA : (if q != "" then searchPosts db q false else getAllPosts db false) =
      .ok fullA)
    (hP : getAllPosts db false = .ok fullP) :
    adminPostsIndex db q k false = .page
      { posts := (fullA.drop ((k - 1).toNat * 10)).take 10,
        currentPage := k,
        totalPages := fullA.length ⌈/⌉ 10,
        hasPrevious := decide (k > 1),
        hasNext := decide (k < ((fullA.length ⌈/⌉ 10 : Nat) : Int)) } ∧
    publicPostsIndex db k false = .page
      { posts := (fullP.drop ((k - 1).toNat * 6)).take 6,
        currentPage := k,
        totalPages := fullP.length ⌈/⌉ 6,
        hasPrevious := decide (k > 1),
        hasNext := decide (k < ((fullP.length ⌈/⌉ 6 : Nat) : Int)) } := by
  constructor
  · simp only [adminPostsIndex, hA]
    have hcast : ((k - 1) * ((10 : Nat) : Int) : Int) =
        (((k - 1).toNat * 10 : Nat) : Int) := by omega
    simp only [hcast, jsSlice_nat, ceilDivTen]
  · simp only [publicPostsIndex, hP]
    have hcast : ((k - 1) * ((6 : Nat) : Int) : Int) =
        (((k - 1).toNat * 6 : Nat) : Int) := by omega
    simp only [hcast, jsSlice_nat, ceilDivSix]

/-- Witness for C5: the empty store, empty search, page 1. -/
theorem listing_handlers_paginate_witness :
    adminPostsIndex ⟨[], [], 1, 1⟩ "" 1 false = .page
      { posts := (([] : List Post).drop (((1 : Int) - 1).toNat * 10)).take 10,
        currentPage := 1,
        totalPages := ([] : List Post).length ⌈/⌉ 10,
        hasPrevious := decide ((1 : Int) > 1),
        hasNext := decide ((1 : Int) < ((([] : List Post).length ⌈/⌉ 10 : Nat) : Int)) } ∧
    publicPostsIndex ⟨[], [], 1, 1⟩ 1 false = .page
      { posts := (([] : List Post).drop (((1 : Int) - 1).toNat * 6)).take 6,
        currentPage := 1,
        totalPages := ([] : List Post).length ⌈/⌉ 6,
        hasPrevious := decide ((1 : Int) > 1),
        hasNext := decide ((1 : Int) < ((([] : List Post).length ⌈/⌉ 6 : Nat) : Int)) } :=
  listing_handlers_paginate ⟨[], [], 1, 1⟩ "" 1 [] [] (by norm_num) rfl rfl

/-- C6 counterexample: a read operation has no `try/catch`, so a
store-level error while executing `getAllPosts`'s statement crosses the
repository boundary to the caller instead of being converted to an empty
return value.  (In this embedding an escaped exception is the
`Except.error` outcome; the claim would require reads to return `.ok` of an
empty/false/null value on a store fault.) -/
theorem repository_read_raises :
    getAllPosts ⟨[], [], 1, 1⟩ true = Except.error "SqliteError" := rfl

/-- C6 amended: the mutating repository operations (`createPost`,
`updatePost`, `deletePost`, `createAuthor`, `updateAuthor`, `deleteAuthor`)
never let an exception escape: every store-level error inside their
`try/catch` is converted to a `null`/`false` return.  An error at the write
statement (or a constraint violation) is caught before anything is written,
leaving the store unchanged; an error at the read-back SELECT of the
create/update functions is caught after the committed INSERT/UPDATE and
still returns `null`, although the store then holds the same state as a
fault-free run.  The read/search operations (`getAllPosts`, `getPostById`,
`getPostBySlug`, `searchPosts`, `getAllAuthors`, `getAuthorById`,
`searchAuthors`, `getAuthorsWithPostCount`) have no catch: they propagate a
store-level error to the caller, and raise exactly when the store
faults. -/
theorem mutations_never_raise_reads_propagate
    (san : String → SanitizeOptions → String) (db : DB) (now id : Nat)
    (pIn : CreatePostInput) (aIn : CreateAuthorInput) (q slug : String)
    (fr : Bool) :
    createPost san db now pIn true fr = (db, none) ∧
    updatePost san db now id pIn true fr = (db, none) ∧
    createAuthor db now aIn true fr = (db, none) ∧
    updateAuthor db now id aIn true fr = (db, none) ∧
    deletePost db id true = (db, false) ∧
    deleteAuthor db id true = (db, false) ∧
    (createPost san db now pIn false true).2 = none ∧
    (updatePost san db now id pIn false true).2 = none ∧
    (createAuthor db now aIn false true).2 = none ∧
    (updateAuthor db now id aIn false true).2 = none ∧
    (createPost san db now pIn false true).1 =
      (createPost san db now pIn false false).1 ∧
    (updatePost san db now id pIn false true).1 =
      (updatePost san db now id pIn false false).1 ∧
    (createAuthor db now aIn false true).1 =
      (createAuthor db now aIn false false).1 ∧
    (updateAuthor db now id aIn false true).1 =
      (updateAuthor db now id aIn false false).1 ∧
    getAllPosts db true = Except.error "SqliteError" ∧
    getPostById db id true = Except.error "SqliteError" ∧
    getPostBySlug db slug true = Except.error "SqliteError" ∧
    searchPosts db q true = Except.error "SqliteError" ∧
    getAllAuthors db true = Except.error "SqliteError" ∧
    getAuthorById db id true = Except.error "SqliteError" ∧
    searchAuthors db q true = Except.error "SqliteError" ∧
    getAuthorsWithPostCount db true = Except.error "SqliteError" ∧
    (getAllPosts db false).isOk = true ∧
    (getPostById db id false).isOk = true ∧
    (getPostBySlug db slug false).isOk = true ∧
    (searchPosts db q false).isOk = true ∧
    (getAllAuthors db false).isOk = true ∧
    (getAuthorById db id false).isOk = true ∧
    (searchAuthors db q false).isOk = true ∧
    (getAuthorsWithPostCount db false).isOk = true := by
  refine ⟨rfl, rfl, rfl, rfl, rfl, rfl, ?_, ?_, ?_, ?_, ?_, ?_, ?_, ?_,
    rfl, rfl, rfl, rfl, rfl, rfl, rfl, rfl,
    rfl, rfl, rfl, rfl, rfl, rfl, rfl, rfl⟩
  · simp only [createPost]
    split
    · rfl
    · split
      · rfl
      · split
        · rfl
        · rfl
  · simp only [updatePost]
    split
    · rfl
    · split
      · rfl
      · split
        · rfl
        · split
          · rfl
          · rfl
  · simp only [createAuthor]
    split
    · rfl
    · split
      · rfl
      · rfl
  · simp only [updateAuthor]
    split
    · rfl
    · split
      · rfl
      · split
        · rfl
        · rfl
  · simp only [createPost]
    split
    · rfl
    · split
      · rfl
      · split
        · rfl
        · rfl
  · simp only [updatePost]
    split
    · rfl
    · split
      · rfl
      · split
        · rfl
        · split
          · rfl
          · rfl
  · simp only [createAuthor]
    split
    · rfl
    · split
      · rfl
      · rfl
  · simp only [updateAuthor]
    split
    · rfl
    · split
      · rfl
      · split
        · rfl
        · rfl

theorem find?_append_of_none {α : Type} {l₁ : List α} {p : α → Bool}
    (h : l₁.find? p = none) (l₂ : List α) :
    (l₁ ++ l₂).find? p = l₂.find? p := by
  induction l₁ with
  | nil => simp
  | cons a as ih =>
    cases hpa : p a
    · simp only [List.cons_append, List.find?_cons, hpa] at h ⊢
      exact ih h
    · simp only [List.find?_cons, hpa] at h
      simp at h

theorem DB.wf_spec {db : DB} (hwf : db.wf = true) :
    (∀ q ∈ db.posts, q.id < db.nextPostId) ∧
    (∀ a ∈ db.authors, a.id < db.nextAuthorId) ∧
    (db.posts.map PostRow.id).Nodup ∧
    (db.authors.map AuthorRow.id).Nodup := by
  simp only [DB.wf, Bool.and_eq_true, List.all_eq_true, decide_eq_true_eq] at hwf
  exact ⟨hwf.1.1.1, hwf.1.1.2, hwf.1.2, hwf.2⟩

/-- Anatomy of a successful `createPost`: the store gains exactly the new
row (with the derived slug and the sanitized content) and the returned
object is that row read back and mapped. -/
theorem createPost_ok (san : String → SanitizeOptions → String) (db : DB)
    (now : Nat) (inp : CreatePostInput) (fw fr : Bool) (db' : DB) (p : Post)
    (hwf : db.wf = true)
    (h : createPost san db now inp fw fr = (db', some p)) :
    db'.posts = db.posts ++
      [{ id := db.nextPostId, title := inp.title, slug := createSlug inp.title,
         excerpt := inp.excerpt, content := san inp.content sanitizeOptions,
         author_id := jsOrNullNat inp.author_id, created_at := now,
         updated_at := now }] ∧
    p = mapRowToPost db'
      { id := db.nextPostId, title := inp.title, slug := createSlug inp.title,
        excerpt := inp.excerpt, content := san inp.content sanitizeOptions,
        author_id := jsOrNullNat inp.author_id, created_at := now,
        updated_at := now } ∧
    (∀ q ∈ db.posts, q.id ≠ db.nextPostId) := by
  have hlt := (DB.wf_spec hwf).1
  have hne : ∀ q ∈ db.posts, q.id ≠ db.nextPostId := fun q hq =>
    Nat.ne_of_lt (hlt q hq)
  simp only [createPost] at h
  split at h
  · simp at h
  · split at h
    · simp at h
    · split at h
      · simp at h
      · simp only [Prod.mk.injEq] at h
        obtain ⟨h1, h2⟩ := h
        subst h1
        split at h2
        · simp at h2
        · have hfindnil :
              db.posts.find? (fun q => q.id == db.nextPostId) = none :=
            List.find?_eq_none.mpr (fun q hq => by simp [hne q hq])
          simp only [getPostByIdQuery, find?_append_of_none hfindnil,
            List.find?_cons, beq_self_eq_true, Option.map_some',
            Option.some.injEq] at h2
          exact ⟨rfl, h2.symm, hne⟩

/-- Anatomy of a successful `updatePost`: the store is the row-wise update
and the returned object is the matched row read back;  every stored row with
the updated id carries the submitted title, the regenerated slug and the
sanitized content. -/
theorem updatePost_ok (san : String → SanitizeOptions → String) (db : DB)
    (now : Nat) (id : Nat) (inp : UpdatePostInput) (fw fr : Bool) (db' : DB)
    (p : Post)
    (h : updatePost san db now id inp fw fr = (db', some p)) :
    db'.posts = db.posts.map (fun q =>
      if q.id == id then
        { q with
          title := inp.title, slug := createSlug inp.title,
          excerpt := inp.excerpt, content := san inp.content sanitizeOptions,
          author_id := jsOrNullNat inp.author_id, updated_at := now }
      else q) ∧
    p.id = id ∧ p.title = inp.title ∧ p.slug = createSlug inp.title ∧
    p.content = san inp.content sanitizeOptions ∧
    (∀ r ∈ db'.posts, r.id = id →
      r.title = inp.title ∧ r.slug = createSlug inp.title ∧
      r.content = san inp.content sanitizeOptions) := by
  simp only [updatePost] at h
  split at h
  · simp at h
  · split at h
    · simp at h
    · split at h
      · simp at h
      · split at h
        · simp at h
        · simp only [Prod.mk.injEq] at h
          obtain ⟨h1, h2⟩ := h
          subst h1
          have hrows : ∀ r ∈ db.posts.map (fun q =>
              if q.id == id then
                { q with
                  title := inp.title, slug := createSlug inp.title,
                  excerpt := inp.excerpt,
                  content := san inp.content sanitizeOptions,
                  author_id := jsOrNullNat inp.author_id, updated_at := now }
              else q), r.id = id →
              r.title = inp.title ∧ r.slug = createSlug inp.title ∧
              r.content = san inp.content sanitizeOptions := by
            intro r hr hrid
            obtain ⟨q0, hq0, hfq⟩ := List.mem_map.mp hr
            by_cases hq0id : q0.id == id
            · rw [if_pos hq0id] at hfq
              subst hfq
              exact ⟨rfl, rfl, rfl⟩
            · rw [if_neg hq0id] at hfq
              subst hfq
              exact absurd (by simp [hrid]) hq0id
          split at h2
          · simp at h2
          simp only [getPostByIdQuery] at h2
          obtain ⟨r, hfind, hmap⟩ := Option.map_eq_some'.mp h2
          have hrmem := List.mem_of_find?_eq_some hfind
          have hrid : r.id = id := by
            have := List.find?_some hfind
            simpa using this
          obtain ⟨ht, hs, hc⟩ := hrows r hrmem hrid
          refine ⟨rfl, ?_, ?_, ?_, ?_, hrows⟩ <;>
            subst hmap <;> simp [mapRowToPost, hrid, ht, hs, hc]

/-- C2: after every successful `createPost`, and independently after every
successful `updatePost` (on any store, any inputs), the stored content (the
content column of every row carrying the returned post's id, and the
returned post object itself) equals the sanitizer applied to the submitted
content under the configured `sanitizeOptions` allow-list — never the raw
input. -/
theorem stored_content_is_sanitized (san : String → SanitizeOptions → String)
    (db : DB) (nowC nowU id : Nat) (inpC : CreatePostInput)
    (inpU : UpdatePostInput) (fwC frC fwU frU : Bool)
    (hwf : db.wf = true) :
    (∀ db' p, createPost san db nowC inpC fwC frC = (db', some p) →
      p.content = san inpC.content sanitizeOptions ∧
      db'.posts.all (fun r => r.id != p.id ||
        r.content == san inpC.content sanitizeOptions) = true) ∧
    (∀ db' p, updatePost san db nowU id inpU fwU frU = (db', some p) →
      p.content = san inpU.content sanitizeOptions ∧
      db'.posts.all (fun r => r.id != p.id ||
        r.content == san inpU.content sanitizeOptions) = true) := by
  constructor
  · intro db' p hc
    obtain ⟨hposts, hp, hne⟩ := createPost_ok san db nowC inpC fwC frC db' p hwf hc
    have hpcid : p.id = db.nextPostId := by rw [hp]; simp [mapRowToPost]
    constructor
    · rw [hp]; simp [mapRowToPost]
    · rw [List.all_eq_true]
      intro r hr
      rw [hposts] at hr
      rcases List.mem_append.mp hr with hmem | hmem
      · have hrne : r.id ≠ p.id := by rw [hpcid]; exact hne r hmem
        simp [hrne]
      · simp only [List.mem_singleton] at hmem
        subst hmem
        simp
  · intro db' p hu
    obtain ⟨huposts, hpid, hptitle, hpslug, hpcont, hurows⟩ :=
      updatePost_ok san db nowU id inpU fwU frU db' p hu
    refine ⟨hpcont, ?_⟩
    rw [List.all_eq_true]
    intro r hr
    by_cases hrid : r.id = p.id
    · obtain ⟨_, _, hcont⟩ := hurows r hr (hpid ▸ hrid)
      simp [hcont]
    · simp [hrid]

/-- Witness for C2: the identity sanitizer over a store holding one post;
the create conjunct is exercised by a create with a fresh title, the update
conjunct by a title-preserving update of post 1. -/
theorem stored_content_is_sanitized_witness :
    ((⟨2, "New", "new", "ex", "hi", none, 5, 5, none⟩ : Post).content =
      (fun (s : String) (_ : SanitizeOptions) => s) "hi" sanitizeOptions ∧
     (⟨[], [⟨1, "Old", "old", "e", "c", none, 0, 0⟩,
         ⟨2, "New", "new", "ex", "hi", none, 5, 5⟩], 1, 3⟩ : DB).posts.all
       (fun r => r.id != (⟨2, "New", "new", "ex", "hi", none, 5, 5, none⟩ : Post).id ||
         r.content == (fun (s : String) (_ : SanitizeOptions) => s) "hi" sanitizeOptions) = true) ∧
    ((⟨1, "Old", "old", "e2", "c2", none, 0, 6, none⟩ : Post).content =
      (fun (s : String) (_ : SanitizeOptions) => s) "c2" sanitizeOptions ∧
     (⟨[], [⟨1, "Old", "old", "e2", "c2", none, 0, 6⟩], 1, 2⟩ : DB).posts.all
       (fun r => r.id != (⟨1, "Old", "old", "e2", "c2", none, 0, 6, none⟩ : Post).id ||
         r.content == (fun (s : String) (_ : SanitizeOptions) => s) "c2" sanitizeOptions) = true) :=
  ⟨(stored_content_is_sanitized (fun s _ => s)
      ⟨[], [⟨1, "Old", "old", "e", "c", none, 0, 0⟩], 1, 2⟩ 5 6 1
      ⟨"New", "ex", "hi", none⟩ ⟨"Old", "e2", "c2", none⟩ false false false false
      (by decide)).1
    ⟨[], [⟨1, "Old", "old", "e", "c", none, 0, 0⟩,
      ⟨2, "New", "new", "ex", "hi", none, 5, 5⟩], 1, 3⟩
    ⟨2, "New", "new", "ex", "hi", none, 5, 5, none⟩ (by decide),
   (stored_content_is_sanitized (fun s _ => s)
      ⟨[], [⟨1, "Old", "old", "e", "c", none, 0, 0⟩], 1, 2⟩ 5 6 1
      ⟨"New", "ex", "hi", none⟩ ⟨"Old", "e2", "c2", none⟩ false false false false
      (by decide)).2
    ⟨[], [⟨1, "Old", "old", "e2", "c2", none, 0, 6⟩], 1, 2⟩
    ⟨1, "Old", "old", "e2", "c2", none, 0, 6, none⟩ (by decide)⟩

/-- C7: after every successful `createPost`, and independently after every
successful `updatePost` — whether or not the title changed — the stored
slug (of the returned post and of every stored row with its id) equals the
slug generator applied to the post's current (submitted) title: the slug is
regenerated from the title on every write. -/
theorem slug_regenerated_from_title (san : String → SanitizeOptions → String)
    (db : DB) (nowC nowU id : Nat) (inpC : CreatePostInput)
    (inpU : UpdatePostInput) (fwC frC fwU frU : Bool)
    (hwf : db.wf = true) :
    (∀ db' p, createPost san db nowC inpC fwC frC = (db', some p) →
      p.title = inpC.title ∧ p.slug = createSlug p.title ∧
      db'.posts.all (fun r => r.id != p.id ||
        r.slug == createSlug r.title) = true) ∧
    (∀ db' p, updatePost san db nowU id inpU fwU frU = (db', some p) →
      p.title = inpU.title ∧ p.slug = createSlug p.title ∧
      db'.posts.all (fun r => r.id != p.id ||
        r.slug == createSlug r.title) = true) := by
  constructor
  · intro db' p hc
    obtain ⟨hposts, hp, hne⟩ := createPost_ok san db nowC inpC fwC frC db' p hwf hc
    have hpcid : p.id = db.nextPostId := by rw [hp]; simp [mapRowToPost]
    refine ⟨?_, ?_, ?_⟩
    · rw [hp]; simp [mapRowToPost]
    · rw [hp]; simp [mapRowToPost]
    · rw [List.all_eq_true]
      intro r hr
      rw [hposts] at hr
      rcases List.mem_append.mp hr with hmem | hmem
      · have hrne : r.id ≠ p.id := by rw [hpcid]; exact hne r hmem
        simp [hrne]
      · simp only [List.mem_singleton] at hmem
        subst hmem
        simp
  · intro db' p hu
    obtain ⟨huposts, hpid, hptitle, hpslug, hpcont, hurows⟩ :=
      updatePost_ok san db nowU id inpU fwU frU db' p hu
    refine ⟨hptitle, by rw [hpslug, hptitle], ?_⟩
    rw [List.all_eq_true]
    intro r hr
    by_cases hrid : r.id = p.id
    · obtain ⟨hti, hsl, _⟩ := hurows r hr (hpid ▸ hrid)
      simp [hti, hsl]
    · simp [hrid]

/-- Witness for C7: same store; the update conjunct is exercised by a
title-preserving update (title "Old" kept), the create conjunct by a create
with title "New". -/
theorem slug_regenerated_from_title_witness :
    ((⟨2, "New", "new", "ex", "hi", none, 5, 5, none⟩ : Post).title = "New" ∧
     (⟨2, "New", "new", "ex", "hi", none, 5, 5, none⟩ : Post).slug =
       createSlug (⟨2, "New", "new", "ex", "hi", none, 5, 5, none⟩ : Post).title ∧
     (⟨[], [⟨1, "Old", "old", "e", "c", none, 0, 0⟩,
         ⟨2, "New", "new", "ex", "hi", none, 5, 5⟩], 1, 3⟩ : DB).posts.all
       (fun r => r.id != (⟨2, "New", "new", "ex", "hi", none, 5, 5, none⟩ : Post).id ||
         r.slug == createSlug r.title) = true) ∧
    ((⟨1, "Old", "old", "e2", "c2", none, 0, 6, none⟩ : Post).title = "Old" ∧
     (⟨1, "Old", "old", "e2", "c2", none, 0, 6, none⟩ : Post).slug =
       createSlug (⟨1, "Old", "old", "e2", "c2", none, 0, 6, none⟩ : Post).title ∧
     (⟨[], [⟨1, "Old", "old", "e2", "c2", none, 0, 6⟩], 1, 2⟩ : DB).posts.all
       (fun r => r.id != (⟨1, "Old", "old", "e2", "c2", none, 0, 6, none⟩ : Post).id ||
         r.slug == createSlug r.title) = true) :=
  ⟨(slug_regenerated_from_title (fun s _ => s)
      ⟨[], [⟨1, "Old", "old", "e", "c", none, 0, 0⟩], 1, 2⟩ 5 6 1
      ⟨"New", "ex", "hi", none⟩ ⟨"Old", "e2", "c2", none⟩ false false false false
      (by decide)).1
    ⟨[], [⟨1, "Old", "old", "e", "c", none, 0, 0⟩,
      ⟨2, "New", "new", "ex", "hi", none, 5, 5⟩], 1, 3⟩
    ⟨2, "New", "new", "ex", "hi", none, 5, 5, none⟩ (by decide),
   (slug_regenerated_from_title (fun s _ => s)
      ⟨[], [⟨1, "Old", "old", "e", "c", none, 0, 0⟩], 1, 2⟩ 5 6 1
      ⟨"New", "ex", "hi", none⟩ ⟨"Old", "e2", "c2", none⟩ false false false false
      (by decide)).2
    ⟨[], [⟨1, "Old", "old", "e2", "c2", none, 0, 6⟩], 1, 2⟩
    ⟨1, "Old", "old", "e2", "c2", none, 0, 6, none⟩ (by decide)⟩

theorem filter_ne_id_length {l : List AuthorRow} {i : Nat}
    (hnd : (l.map AuthorRow.id).Nodup)
    (hmem : l.any (fun a => a.id == i) = true) :
    (l.filter (fun a => a.id != i)).length + 1 = l.length := by
  induction l with
  | nil => simp at hmem
  | cons a as ih =>
    simp only [List.map_cons, List.nodup_cons] at hnd
    by_cases hai : a.id = i
    · have htail : as.filter (fun x => x.id != i) = as := by
        refine List.filter_eq_self.mpr ?_
        intro x hx
        have hxa : x.id ≠ a.id := fun he =>
          hnd.1 (he ▸ List.mem_map_of_mem AuthorRow.id hx)
        rw [bne_iff_ne, ← hai]
        exact hxa
      simp [List.filter_cons, hai, htail]
    · have hmem' : as.any (fun x => x.id == i) = true := by
        simp only [List.any_cons] at hmem
        simpa [hai] using hmem
      have hih := ih hnd.2 hmem'
      simp only [List.filter_cons, List.length_cons]
      rw [if_pos (by simp [hai])]
      simp only [List.length_cons]
      omega

/-- C4: a successful `deleteAuthor(id)` reports `true`, removes exactly the
author row with that id (one row fewer, no surviving author has the id),
keeps every post (same count, same ids), and clears — rather than deletes —
the author reference of every post that pointed at the deleted author, via
the store's `ON DELETE SET NULL` action. -/
theorem deleteAuthor_orphans_posts (db : DB) (id : Nat) (fault : Bool)
    (db' : DB)
    (hwf : db.wf = true)
    (h : deleteAuthor db id fault = (db', true)) :
    db.authors.any (fun a => a.id == id) = true ∧
    db'.authors = db.authors.filter (fun a => a.id != id) ∧
    db'.authors.length + 1 = db.authors.length ∧
    db'.authors.all (fun a => a.id != id) = true ∧
    db'.posts.length = db.posts.length ∧
    db'.posts.map PostRow.id = db.posts.map PostRow.id ∧
    db'.posts.all (fun p => p.author_id != some id) = true ∧
    db'.posts = db.posts.map (fun p =>
      if p.author_id == some id then { p with author_id := none } else p) := by
  simp only [deleteAuthor] at h
  split at h
  · simp at h
  · simp only [Prod.mk.injEq] at h
    obtain ⟨h1, hany⟩ := h
    subst h1
    refine ⟨hany, rfl, ?_, ?_, ?_, ?_, ?_, rfl⟩
    · exact filter_ne_id_length (DB.wf_spec hwf).2.2.2 hany
    · rw [List.all_eq_true]
      intro a ha
      exact (List.mem_filter.mp ha).2
    · simp
    · rw [List.map_map]
      refine List.map_congr_left ?_
      intro p _
      by_cases hp : p.author_id == some id
      · rw [Function.comp_apply, if_pos hp]
      · rw [Function.comp_apply, if_neg hp]
    · rw [List.all_eq_true]
      intro p hp
      obtain ⟨q, hq, hfq⟩ := List.mem_map.mp hp
      by_cases hqa : q.author_id == some id
      · rw [if_pos hqa] at hfq
        subst hfq
        simp
      · rw [if_neg hqa] at hfq
        subst hfq
        simpa using hqa

/-- Witness for C4: one author referenced by the first of two posts. -/
theorem deleteAuthor_orphans_posts_witness :
    (⟨[⟨1, "A", none, none, 0, 0⟩],
       [⟨1, "t", "t", "e", "c", some 1, 0, 0⟩,
        ⟨2, "u", "u", "e2", "c2", none, 0, 0⟩], 2, 3⟩ : DB).authors.any
      (fun a => a.id == 1) = true ∧
    (⟨[], [⟨1, "t", "t", "e", "c", none, 0, 0⟩,
        ⟨2, "u", "u", "e2", "c2", none, 0, 0⟩], 2, 3⟩ : DB).authors =
      (⟨[⟨1, "A", none, none, 0, 0⟩],
         [⟨1, "t", "t", "e", "c", some 1, 0, 0⟩,
          ⟨2, "u", "u", "e2", "c2", none, 0, 0⟩], 2, 3⟩ : DB).authors.filter
        (fun a => a.id != 1) ∧
    (⟨[], [⟨1, "t", "t", "e", "c", none, 0, 0⟩,
        ⟨2, "u", "u", "e2", "c2", none, 0, 0⟩], 2, 3⟩ : DB).authors.length + 1 =
      (⟨[⟨1, "A", none, none, 0, 0⟩],
         [⟨1, "t", "t", "e", "c", some 1, 0, 0⟩,
          ⟨2, "u", "u", "e2", "c2", none, 0, 0⟩], 2, 3⟩ : DB).authors.length ∧
    (⟨[], [⟨1, "t", "t", "e", "c", none, 0, 0⟩,
        ⟨2, "u", "u", "e2", "c2", none, 0, 0⟩], 2, 3⟩ : DB).authors.all
      (fun a => a.id != 1) = true ∧
    (⟨[], [⟨1, "t", "t", "e", "c", none, 0, 0⟩,
        ⟨2, "u", "u", "e2", "c2", none, 0, 0⟩], 2, 3⟩ : DB).posts.length =
      (⟨[⟨1, "A", none, none, 0, 0⟩],
         [⟨1, "t", "t", "e", "c", some 1, 0, 0⟩,
          ⟨2, "u", "u", "e2", "c2", none, 0, 0⟩], 2, 3⟩ : DB).posts.length ∧
    (⟨[], [⟨1, "t", "t", "e", "c", none, 0, 0⟩,
        ⟨2, "u", "u", "e2", "c2", none, 0, 0⟩], 2, 3⟩ : DB).posts.map PostRow.id =
      (⟨[⟨1, "A", none, none, 0, 0⟩],
         [⟨1, "t", "t", "e", "c", some 1, 0, 0⟩,
          ⟨2, "u", "u", "e2", "c2", none, 0, 0⟩], 2, 3⟩ : DB).posts.map PostRow.id ∧
    (⟨[], [⟨1, "t", "t", "e", "c", none, 0, 0⟩,
        ⟨2, "u", "u", "e2", "c2", none, 0, 0⟩], 2, 3⟩ : DB).posts.all
      (fun p => p.author_id != some 1) = true ∧
    (⟨[], [⟨1, "t", "t", "e", "c", none, 0, 0⟩,
        ⟨2, "u", "u", "e2", "c2", none, 0, 0⟩], 2, 3⟩ : DB).posts =
      (⟨[⟨1, "A", none, none, 0, 0⟩],
         [⟨1, "t", "t", "e", "c", some 1, 0, 0⟩,
          ⟨2, "u", "u", "e2", "c2", none, 0, 0⟩], 2, 3⟩ : DB).posts.map
        (fun p => if p.author_id == some 1 then { p with author_id := none }
          else p) :=
  deleteAuthor_orphans_posts
    ⟨[⟨1, "A", none, none, 0, 0⟩],
     [⟨1, "t", "t", "e", "c", some 1, 0, 0⟩,
      ⟨2, "u", "u", "e2", "c2", none, 0, 0⟩], 2, 3⟩ 1 false
    ⟨[], [⟨1, "t", "t", "e", "c", none, 0, 0⟩,
      ⟨2, "u", "u", "e2", "c2", none, 0, 0⟩], 2, 3⟩
    (by decide) (by decide)

theorem wf_after_insert_author (db : DB) (nm : String) (b : Option String)
    (now : Nat) (hwf : db.wf = true) :
    (DB.mk (db.authors ++ [⟨db.nextAuthorId, nm, none, b, now, now⟩])
      db.posts (db.nextAuthorId + 1) db.nextPostId).wf = true := by
  obtain ⟨hp, ha, hnp, hna⟩ := DB.wf_spec hwf
  simp only [DB.wf, Bool.and_eq_true, List.all_eq_true, decide_eq_true_eq]
  refine ⟨⟨⟨fun p hpm => hp p hpm, ?_⟩, hnp⟩, ?_⟩
  · intro x hx
    rcases List.mem_append.mp hx with hmem | hmem
    · exact Nat.lt_succ_of_lt (ha x hmem)
    · simp only [List.mem_singleton] at hmem
      subst hmem
      exact Nat.lt_succ_self _
  · rw [List.map_append, List.nodup_append]
    refine ⟨hna, List.nodup_singleton _, ?_⟩
    intro i hi hi2
    simp only [List.map_cons, List.map_nil, List.mem_singleton] at hi2
    obtain ⟨x, hx, hxi⟩ := List.mem_map.mp hi
    subst hi2
    exact absurd hxi (Nat.ne_of_lt (ha x hx))

/-- A `createAuthor` whose submitted email is absent or empty always
succeeds: `email || null` stores NULL, and the UNIQUE(email) constraint
never fires on NULL. -/
theorem createAuthor_empty_email_ok (db : DB) (now : Nat)
    (a : CreateAuthorInput) (hwf : db.wf = true)
    (he : a.email = none ∨ a.email = some "") :
    createAuthor db now a false false =
      (⟨db.authors ++ [⟨db.nextAuthorId, a.name, none, jsOrNullStr a.bio, now, now⟩],
        db.posts, db.nextAuthorId + 1, db.nextPostId⟩,
       some ⟨db.nextAuthorId, a.name, none, jsOrNullStr a.bio, now, now⟩) := by
  have hemail : jsOrNullStr a.email = none := by
    rcases he with he | he <;> rw [he] <;> rfl
  have hfind : (db.authors ++
      [(⟨db.nextAuthorId, a.name, none, jsOrNullStr a.bio, now, now⟩ : AuthorRow)]).find?
      (fun x => x.id == db.nextAuthorId) =
      some ⟨db.nextAuthorId, a.name, none, jsOrNullStr a.bio, now, now⟩ := by
    rw [find?_append_of_none
      (List.find?_eq_none.mpr (fun q hq => by
        simp [Nat.ne_of_lt ((DB.wf_spec hwf).2.1 q hq)]))]
    simp [List.find?]
  simp [createAuthor, hemail, getAuthorByIdQuery, hfind]

/-- C9: when the submitted email is the empty string or absent, the author
repository stores NULL instead of the empty string: on any well-formed
store — including a fresh one — two consecutive empty-email `createAuthor`
calls both succeed unconditionally (no email-uniqueness failure, since
uniqueness only applies to non-NULL emails), each storing a NULL email; and
independently, every successful `updateAuthor` with an empty/absent email
stores NULL on every row carrying the updated id. -/
theorem empty_email_stored_as_null (db : DB) (now now2 now3 : Nat)
    (a1 a2 : CreateAuthorInput) (id : Nat) (u : UpdateAuthorInput)
    (hwf : db.wf = true)
    (he1 : a1.email = none ∨ a1.email = some "")
    (he2 : a2.email = none ∨ a2.email = some "")
    (heu : u.email = none ∨ u.email = some "") :
    createAuthor db now a1 false false =
      (⟨db.authors ++ [⟨db.nextAuthorId, a1.name, none, jsOrNullStr a1.bio, now, now⟩],
        db.posts, db.nextAuthorId + 1, db.nextPostId⟩,
       some ⟨db.nextAuthorId, a1.name, none, jsOrNullStr a1.bio, now, now⟩) ∧
    createAuthor (createAuthor db now a1 false false).1 now2 a2 false false =
      (⟨(db.authors ++ [⟨db.nextAuthorId, a1.name, none, jsOrNullStr a1.bio, now, now⟩]) ++
          [⟨db.nextAuthorId + 1, a2.name, none, jsOrNullStr a2.bio, now2, now2⟩],
        db.posts, db.nextAuthorId + 2, db.nextPostId⟩,
       some ⟨db.nextAuthorId + 1, a2.name, none, jsOrNullStr a2.bio, now2, now2⟩) ∧
    (∀ db'u ru, updateAuthor db now3 id u false false = (db'u, some ru) →
      ru.email = none ∧
      db'u.authors.all (fun a => a.id != ru.id || a.email == none) = true) := by
  have h1 := createAuthor_empty_email_ok db now a1 hwf he1
  have hwf1 := wf_after_insert_author db a1.name (jsOrNullStr a1.bio) now hwf
  have h2 := createAuthor_empty_email_ok
    ⟨db.authors ++ [⟨db.nextAuthorId, a1.name, none, jsOrNullStr a1.bio, now, now⟩],
     db.posts, db.nextAuthorId + 1, db.nextPostId⟩ now2 a2 hwf1 he2
  have hemailu : jsOrNullStr u.email = none := by
    rcases heu with he | he <;> rw [he] <;> rfl
  refine ⟨h1, ?_, ?_⟩
  · rw [h1]
    exact h2
  · intro db'u ru hu
    simp only [updateAuthor, hemailu, Bool.false_eq_true, if_false] at hu
    split at hu
    · simp at hu
    · simp only [Prod.mk.injEq] at hu
      obtain ⟨hdb, hfind⟩ := hu
      subst hdb
      simp only [getAuthorByIdQuery] at hfind
      have hruid : ru.id = id := by
        have := List.find?_some hfind
        simpa using this
      have hmem := List.mem_of_find?_eq_some hfind
      obtain ⟨q0, hq0, hfq⟩ := List.mem_map.mp hmem
      have hruemail : ru.email = none := by
        by_cases hq0id : q0.id == id
        · rw [if_pos hq0id] at hfq
          rw [← hfq]
        · rw [if_neg hq0id] at hfq
          rw [← hfq] at hruid
          exact absurd (by simp [hruid]) hq0id
      refine ⟨hruemail, ?_⟩
      rw [List.all_eq_true]
      intro a ha
      obtain ⟨q1, hq1, hfq1⟩ := List.mem_map.mp ha
      by_cases hq1id : q1.id == id
      · rw [if_pos hq1id] at hfq1
        subst hfq1
        simp
      · rw [if_neg hq1id] at hfq1
        subst hfq1
        have : q1.id ≠ ru.id := by
          rw [hruid]
          simpa using hq1id
        simp [this]

/-- Witness for C9: the two-creates conclusions at the fresh, empty store
(both succeed, both store NULL), and the update conclusion at a store with
one real-email author, updated with an empty email. -/
theorem empty_email_stored_as_null_witness :
    createAuthor ⟨[], [], 1, 1⟩ 5 ⟨"B", some "", none⟩ false false =
      (⟨[] ++ [⟨1, "B", none, jsOrNullStr none, 5, 5⟩], [], 2, 1⟩,
       some ⟨1, "B", none, jsOrNullStr none, 5, 5⟩) ∧
    createAuthor (createAuthor ⟨[], [], 1, 1⟩ 5 ⟨"B", some "", none⟩ false false).1
        6 ⟨"C", none, some "bio"⟩ false false =
      (⟨([] ++ [⟨1, "B", none, jsOrNullStr none, 5, 5⟩]) ++
          [⟨2, "C", none, jsOrNullStr (some "bio"), 6, 6⟩], [], 3, 1⟩,
       some ⟨2, "C", none, jsOrNullStr (some "bio"), 6, 6⟩) ∧
    ((⟨1, "A2", none, none, 0, 7⟩ : AuthorRow).email = none ∧
     (⟨[⟨1, "A2", none, none, 0, 7⟩], [], 2, 1⟩ : DB).authors.all
       (fun a => a.id != (⟨1, "A2", none, none, 0, 7⟩ : AuthorRow).id ||
         a.email == none) = true) :=
  ⟨(empty_email_stored_as_null ⟨[], [], 1, 1⟩ 5 6 7
      ⟨"B", some "", none⟩ ⟨"C", none, some "bio"⟩ 1 ⟨"A2", some "", some ""⟩
      (by decide) (Or.inr rfl) (Or.inl rfl) (Or.inr rfl)).1,
   (empty_email_stored_as_null ⟨[], [], 1, 1⟩ 5 6 7
      ⟨"B", some "", none⟩ ⟨"C", none, some "bio"⟩ 1 ⟨"A2", some "", some ""⟩
      (by decide) (Or.inr rfl) (Or.inl rfl) (Or.inr rfl)).2.1,
   (empty_email_stored_as_null ⟨[⟨1, "A", some "x", none, 0, 0⟩], [], 2, 1⟩ 5 6 7
      ⟨"B", some "", none⟩ ⟨"C", none, some "bio"⟩ 1 ⟨"A2", some "", some ""⟩
      (by decide) (Or.inr rfl) (Or.inl rfl) (Or.inr rfl)).2.2
     ⟨[⟨1, "A2", none, none, 0, 7⟩], [], 2, 1⟩ ⟨1, "A2", none, none, 0, 7⟩
     (by decide)⟩

/-- C10: both search operations splice the raw query between `%` markers
without escaping LIKE metacharacters, so the query `"a%b"` — whose `%`
acts as a wildcard — matches a post titled `"axb"` and an author named
`"azb"`, although no field of either record contains `"a%b"` as a literal
substring. -/
theorem search_treats_percent_as_wildcard :
    searchPosts ⟨[⟨1, "azb", none, none, 0, 0⟩],
        [⟨1, "axb", "axb", "w", "h", none, 0, 0⟩], 2, 2⟩ "a%b" false =
      Except.ok [⟨1, "axb", "axb", "w", "h", none, 0, 0, none⟩] ∧
    containsSubstr "a%b" "axb" = false ∧
    containsSubstr "a%b" "w" = false ∧
    containsSubstr "a%b" "h" = false ∧
    searchAuthors ⟨[⟨1, "azb", none, none, 0, 0⟩],
        [⟨1, "axb", "axb", "w", "h", none, 0, 0⟩], 2, 2⟩ "a%b" false =
      Except.ok [⟨1, "azb", none, none, 0, 0⟩] ∧
    containsSubstr "a%b" "azb" = false ∧
    (⟨1, "azb", none, none, 0, 0⟩ : AuthorRow).email = none :=
  ⟨rfl, rfl, rfl, rfl, rfl, rfl, rfl⟩
